import Mathlib

/-!
Shallow embedding of the object-detection notebook pipeline
(letterbox preprocessing, raw-output decoding, box rendering)
together with theorems settling the specified properties.

Conventions of the embedding:
* Python / numpy sequence indexing is modelled by `pyGet?` on lists:
  a negative index wraps by the length, any index outside
  `[-len, len)` is an `IndexError`.
* Python exceptions are modelled by `Except PyError`: a raised
  exception aborts the whole call, so no partial output survives.
* Python floats are idealised as exact rationals `ℚ`.
-/

set_option autoImplicit false

namespace ObjDet

/-- Python runtime errors raised by the pipeline code. -/
inductive PyError where
  | indexError
  | zeroDivisionError
  deriving DecidableEq

/-- Python sequence indexing `xs[i]`: a negative `i` counts from the
end; an index outside `[-len xs, len xs)` raises `IndexError`
(modelled as `none`). -/
def pyGet? {α : Type} (xs : List α) (i : ℤ) : Option α :=
  let j := if i < 0 then i + xs.length else i
  if 0 ≤ j then xs.get? j.toNat else none

/-- numpy indexing `a[(i, j)]` into a 2-axis nesting, each axis with
Python wrap-around semantics. -/
def pyGet2? {α : Type} (a : List (List α)) (i j : ℤ) : Option α := do
  let row ← pyGet? a i
  pyGet? row j

/-- numpy indexing `a[(i, j, k)]` into a 3-axis nesting, each axis with
Python wrap-around semantics. -/
def pyGet3? {α : Type} (a : List (List (List α))) (i j k : ℤ) : Option α := do
  let plane ← pyGet? a i
  let row ← pyGet? plane j
  pyGet? row k

/-- The nonnegative position a Python index actually reads once the
lookup succeeds: `i + len` for a negative `i`, else `i` itself. -/
def pyWrap (n : ℕ) (i : ℤ) : ℕ :=
  if i < 0 then (i + n).toNat else i.toNat

/-- The loop body of `postprocess` over the triples of
`raw_class_indices[0]`.  Each iteration appends
`classes[raw_indices[1]]`, `raw_scores[tuple(raw_indices)]` and
`raw_boxes[(raw_indices[0], raw_indices[2])]`; a failed lookup raises
`IndexError`, discarding everything. -/
def postprocessGo {α β : Type}
    (raw_boxes : List (List β)) (raw_scores : List (List (List α)))
    (classes : List String) :
    List (ℤ × ℤ × ℤ) → Except PyError (List β × List α × List String)
  | [] => .ok ([], [], [])
  | t :: ts =>
    match pyGet? classes t.2.1 with
    | none => .error .indexError
    | some cls =>
      match pyGet3? raw_scores t.1 t.2.1 t.2.2 with
      | none => .error .indexError
      | some sc =>
        match pyGet2? raw_boxes t.1 t.2.2 with
        | none => .error .indexError
        | some bx =>
          match postprocessGo raw_boxes raw_scores classes ts with
          | .error e => .error e
          | .ok (bs, ss, ls) => .ok (bx :: bs, sc :: ss, cls :: ls)

/-- Function `postprocess(raw_boxes, raw_scores, raw_class_indices)` from
the notebook: iterates the triples of `raw_class_indices[0]` in order and
gathers boxes, scores and class labels.  `classes` is the external
class-label table the notebook imports. -/
def postprocess {α β : Type}
    (raw_boxes : List (List β)) (raw_scores : List (List (List α)))
    (raw_class_indices : List (List (ℤ × ℤ × ℤ)))
    (classes : List String) :
    Except PyError (List β × List α × List String) :=
  match pyGet? raw_class_indices 0 with
  | none => .error .indexError
  | some triples => postprocessGo raw_boxes raw_scores classes triples

/-- The gather performed for one triple, as a single partial lookup:
class label, then score, then box. -/
def gatherTriple {α β : Type}
    (raw_boxes : List (List β)) (raw_scores : List (List (List α)))
    (classes : List String) (t : ℤ × ℤ × ℤ) : Option (β × α × String) := do
  let cls ← pyGet? classes t.2.1
  let sc ← pyGet3? raw_scores t.1 t.2.1 t.2.2
  let bx ← pyGet2? raw_boxes t.1 t.2.2
  pure (bx, sc, cls)

/-- An in-memory RGB image: integer width and height and a total pixel
map sending coordinates `(x, y)` to `(r, g, b)` channel values. -/
structure Image where
  width : ℕ
  height : ℕ
  pixel : ℕ → ℕ → ℕ × ℕ × ℕ

/-- All three channels of a pixel are legal 8-bit values. -/
def PixelLe255 (p : ℕ × ℕ × ℕ) : Prop :=
  p.1 ≤ 255 ∧ p.2.1 ≤ 255 ∧ p.2.2 ≤ 255

/-- Contract of the external `PIL.Image.resize` collaborator: it returns
an image of exactly the requested dimensions whose pixels are legal
8-bit values. -/
def ResizeSpec (resize : Image → ℕ → ℕ → Image) : Prop :=
  ∀ (img : Image) (nw nh : ℕ),
    (resize img nw nh).width = nw ∧ (resize img nw nh).height = nh ∧
    ∀ x y, PixelLe255 ((resize img nw nh).pixel x y)

/-- The body of `letterbox_image` past the divisions: scale, resize,
gray canvas and centered paste. -/
def letterboxCore (resize : Image → ℕ → ℕ → Image) (image : Image)
    (size : ℕ × ℕ) : Image :=
  let iw := image.width
  let ih := image.height
  let w := size.1
  let h := size.2
  let scale : ℚ := min ((w : ℚ) / (iw : ℚ)) ((h : ℚ) / (ih : ℚ))
  let nw : ℕ := ((iw : ℚ) * scale).floor.toNat
  let nh : ℕ := ((ih : ℚ) * scale).floor.toNat
  let resized := resize image nw nh
  let ox := (w - nw) / 2
  let oy := (h - nh) / 2
  ⟨w, h, fun x y =>
    if ox ≤ x ∧ x < ox + nw ∧ oy ≤ y ∧ y < oy + nh then
      resized.pixel (x - ox) (y - oy)
    else (128, 128, 128)⟩

/-- Function `letterbox_image(image, size)` from the notebook:
aspect-preserving resize with gray padding.  The division `w/iw` (or
`h/ih`) raises `ZeroDivisionError` when the input image has zero width
or height; the notebook performs no validation of its own. -/
def letterbox_image (resize : Image → ℕ → ℕ → Image) (image : Image)
    (size : ℕ × ℕ) : Except PyError Image :=
  if image.width = 0 ∨ image.height = 0 then .error .zeroDivisionError
  else .ok (letterboxCore resize image size)

/-- A 3-axis float tensor: shape plus a total entry map. -/
structure Arr3 where
  dims : ℕ × ℕ × ℕ
  entry : ℕ → ℕ → ℕ → ℚ

/-- A 4-axis float tensor: shape plus a total entry map. -/
structure Arr4 where
  dims : ℕ × ℕ × ℕ × ℕ
  entry : ℕ → ℕ → ℕ → ℕ → ℚ

/-- Channel `c` of an RGB pixel, numpy last-axis order. -/
def channel (p : ℕ × ℕ × ℕ) : ℕ → ℕ
  | 0 => p.1
  | 1 => p.2.1
  | 2 => p.2.2
  | _ => 0

/-- Step `np.array(boxed_image, dtype=float32)`: a `(h, w, 3)` array of
pixel channel values. -/
def imageToArray (img : Image) : Arr3 :=
  ⟨(img.height, img.width, 3), fun y x c => (channel (img.pixel x y) c : ℚ)⟩

/-- Step `image_data /= 255.`. -/
def divScalar (a : Arr3) (s : ℚ) : Arr3 :=
  ⟨a.dims, fun i j k => a.entry i j k / s⟩

/-- Step `np.transpose(image_data, [2, 0, 1])`: new entry `(i, j, k)` is
old entry `(j, k, i)`. -/
def transpose201 (a : Arr3) : Arr3 :=
  ⟨(a.dims.2.2, a.dims.1, a.dims.2.1), fun i j k => a.entry j k i⟩

/-- Step `np.expand_dims(image_data, 0)`: add a leading batch axis. -/
def expandDims0 (a : Arr3) : Arr4 :=
  ⟨(1, a.dims.1, a.dims.2.1, a.dims.2.2), fun _ i j k => a.entry i j k⟩

/-- Function `transform(image)` from the notebook: letterbox to the
fixed `416×416` canvas, then normalize to `[0,1]` and reorder into a
`(1, 3, h, w)` float tensor. -/
def transform (resize : Image → ℕ → ℕ → Image) (image : Image) :
    Except PyError Arr4 :=
  match letterbox_image resize image (416, 416) with
  | .error e => .error e
  | .ok boxed =>
    .ok (expandDims0 (transpose201 (divScalar (imageToArray boxed) 255)))

/-- Font metrics of the external PIL font: `font.getbbox(s)` returns a
bounding box `(x0, y0, x1, y1)`. -/
def Font : Type := String → ℚ × ℚ × ℚ × ℚ

/-- One PIL drawing primitive issued while annotating an image. -/
inductive DrawOp where
  | line (points : List (ℚ × ℚ)) (width : ℕ) (fill : String)
  | rect (corner1 corner2 : ℚ × ℚ) (fill : String)
  | text (xy : ℚ × ℚ) (s : String) (fill : String)
  deriving DecidableEq

/-- Python `int()` applied to a float: truncation toward zero. -/
def pyInt (q : ℚ) : ℤ := if q < 0 then -⌊-q⌋ else ⌊q⌋

/-- The f-string the renderer builds for one detection: the label, a
colon and space, `int(100 * score)`, and a percent sign. -/
def displayStr (class_ : String) (score : ℚ) : String :=
  class_ ++ ": " ++ toString (pyInt (100 * score)) ++ "%"

/-- The display string as the specification words it: percentage
rounded to the nearest integer.  Named for comparison against
`displayStr`, which is what the code computes. -/
def displayStrSpec (class_ : String) (score : ℚ) : String :=
  class_ ++ ": " ++ toString (round (score * 100)) ++ "%"

/-- The label-chip loop of `_draw_bounding_box_on_image`: for each
display string (the caller passes the list already reversed) draw the
filled rectangle and the text, then move `text_bottom` upward. -/
def textBlockOps (font : Font) (color : String) (left : ℚ) :
    ℚ → List String → List DrawOp
  | _, [] => []
  | text_bottom, ds :: rest =>
    let bb := font ds
    let text_width := bb.2.2.1
    let text_height := bb.2.2.2
    let margin : ℚ := (⌈(5 / 100 : ℚ) * text_height⌉ : ℤ)
    DrawOp.rect (left, text_bottom - text_height - 2 * margin)
        (left + text_width, text_bottom) color ::
      DrawOp.text (left + margin, text_bottom - text_height - margin) ds
        "black" ::
      textBlockOps font color left (text_bottom - (text_height - 2 * margin))
        rest

/-- Function `_draw_bounding_box_on_image` from the notebook, emitting
in order the PIL drawing primitives it issues: the box outline scaled
from the 416-pixel canvas to the image, then the label chips. -/
def _draw_bounding_box_on_image (image : Image) (ymin xmin ymax xmax : ℚ)
    (color : String) (font : Font) (thickness : ℕ)
    (display_str_list : List String) : List DrawOp :=
  let im_width : ℚ := image.width
  let im_height : ℚ := image.height
  let width_scaling_factor := im_width / 416
  let height_scaling_factor := im_height / 416
  let left := xmin * width_scaling_factor
  let right := xmax * width_scaling_factor
  let top := ymin * height_scaling_factor
  let bottom := ymax * height_scaling_factor
  let display_str_heights := display_str_list.map fun ds => (font ds).2.2.2
  let total_display_str_height :=
    (1 + 2 * (5 / 100 : ℚ)) * display_str_heights.sum
  let text_bottom :=
    if top > total_display_str_height then top
    else top + total_display_str_height
  DrawOp.line [(left, top), (left, bottom), (right, bottom), (right, top),
      (left, top)] thickness color ::
    textBlockOps font color left text_bottom display_str_list.reverse

/-- The loop of `draw_boxes` over `enumerate(classes)`: look up box and
score by position, build the display string, assign a color on first
sight of a label via `colors[hash(class_) * 8 % len(colors)]`, and emit
the drawing primitives of `_draw_bounding_box_on_image`. -/
def draw_boxes_go (hashF : String → ℤ) (colors : List String) (font : Font)
    (image_pil : Image) (boxes : List (ℚ × ℚ × ℚ × ℚ)) (scores : List ℚ) :
    List String → ℕ → List (String × String) → Except PyError (List DrawOp)
  | [], _, _ => .ok []
  | class_ :: rest, index, class_colors =>
    match boxes.get? index with
    | none => .error .indexError
    | some box =>
      match scores.get? index with
      | none => .error .indexError
      | some score =>
        let display_str := displayStr class_ score
        match class_colors.lookup class_ with
        | some color =>
          match draw_boxes_go hashF colors font image_pil boxes scores rest
              (index + 1) class_colors with
          | .error e => .error e
          | .ok ops =>
            .ok (_draw_bounding_box_on_image image_pil box.1 box.2.1
              box.2.2.1 box.2.2.2 color font 4 [display_str] ++ ops)
        | none =>
          if colors.length = 0 then .error .zeroDivisionError
          else
            match pyGet? colors (hashF class_ * 8 % colors.length) with
            | none => .error .indexError
            | some color =>
              match draw_boxes_go hashF colors font image_pil boxes scores
                  rest (index + 1) ((class_, color) :: class_colors) with
              | .error e => .error e
              | .ok ops =>
                .ok (_draw_bounding_box_on_image image_pil box.1 box.2.1
                  box.2.2.1 box.2.2.2 color font 4 [display_str] ++ ops)

/-- Function `draw_boxes(image, boxes, scores, classes)` from the
notebook, with the drawing backend abstracted: returns the primitives
drawn onto the fresh surface opened from the source image. -/
def draw_boxes (hashF : String → ℤ) (colors : List String) (font : Font)
    (image_pil : Image) (boxes : List (ℚ × ℚ × ℚ × ℚ)) (scores : List ℚ)
    (classes : List String) : Except PyError (List DrawOp) :=
  draw_boxes_go hashF colors font image_pil boxes scores classes 0 []

/-- Apply drawing primitives in order to an image through an abstract
PIL drawing backend. -/
def applyOps (applyOp : Image → DrawOp → Image) (img : Image)
    (ops : List DrawOp) : Image :=
  ops.foldl applyOp img

/-- The full rendering call: open a fresh surface with the source
content of the source image, draw every detection, and return the annotated
surface. -/
def renderBoxes (applyOp : Image → DrawOp → Image) (hashF : String → ℤ)
    (colors : List String) (font : Font) (image : Image)
    (boxes : List (ℚ × ℚ × ℚ × ℚ)) (scores : List ℚ)
    (classes : List String) : Except PyError Image :=
  match draw_boxes hashF colors font image boxes scores classes with
  | .error e => .error e
  | .ok ops => .ok (applyOps applyOp image ops)

/-- A toy resize backend satisfying `ResizeSpec`, used to instantiate
theorems at concrete inputs. -/
def constResize : Image → ℕ → ℕ → Image :=
  fun _ nw nh => ⟨nw, nh, fun _ _ => (0, 0, 0)⟩

/-- Running `postprocess` on a batch-1 index tensor immediately runs the loop on
the single slice. -/
theorem postprocess_singleton {α β : Type}
    (raw_boxes : List (List β)) (raw_scores : List (List (List α)))
    (ts : List (ℤ × ℤ × ℤ)) (classes : List String) :
    postprocess raw_boxes raw_scores [ts] classes =
      postprocessGo raw_boxes raw_scores classes ts := rfl

/-- Lookup `pyGet?` fails exactly on the indices Python rejects: those below
`-len` and those at or above `len`. -/
theorem pyGet?_eq_none_iff {α : Type} (xs : List α) (i : ℤ) :
    pyGet? xs i = none ↔ i + xs.length < 0 ∨ (xs.length : ℤ) ≤ i := by
  simp only [pyGet?]
  by_cases hi : i < 0
  · simp only [hi, if_true]
    by_cases hj : (0 : ℤ) ≤ i + xs.length
    · rw [if_pos hj]
      simp only [List.get?_eq_none]
      omega
    · rw [if_neg hj]
      simp only [true_iff]
      omega
  · simp only [hi, if_false]
    rw [if_pos (by omega)]
    simp only [List.get?_eq_none]
    omega

/-- On success, a Python lookup reads the underlying list at the
wrapped nonnegative position `pyWrap`: `i + len` for negative `i`,
else `i` itself. -/
theorem pyGet?_eq_some_wrap {α : Type} (xs : List α) (i : ℤ) (a : α)
    (h : pyGet? xs i = some a) : xs.get? (pyWrap xs.length i) = some a := by
  simp only [pyGet?] at h
  unfold pyWrap
  by_cases hi : i < 0
  · rw [if_pos hi] at h ⊢
    by_cases hj : (0 : ℤ) ≤ i + xs.length
    · rw [if_pos hj] at h
      exact h
    · rw [if_neg hj] at h
      cases h
  · rw [if_neg hi] at h ⊢
    rw [if_pos (by omega)] at h
    exact h

/-- A 2-axis numpy lookup succeeds exactly via its per-axis chain. -/
theorem pyGet2?_eq_some_iff {α : Type} (a : List (List α)) (i j : ℤ)
    (v : α) :
    pyGet2? a i j = some v ↔
      ∃ row, pyGet? a i = some row ∧ pyGet? row j = some v := by
  simp only [pyGet2?, Option.bind_eq_bind', Option.bind_eq_some]

/-- A 3-axis numpy lookup succeeds exactly via its per-axis chain. -/
theorem pyGet3?_eq_some_iff {α : Type} (a : List (List (List α)))
    (i j k : ℤ) (v : α) :
    pyGet3? a i j k = some v ↔
      ∃ plane row, pyGet? a i = some plane ∧ pyGet? plane j = some row ∧
        pyGet? row k = some v := by
  simp only [pyGet3?, Option.bind_eq_bind', Option.bind_eq_some]
  constructor
  · rintro ⟨plane, hp, row, hr, hv⟩
    exact ⟨plane, row, hp, hr, hv⟩
  · rintro ⟨plane, row, hp, hr, hv⟩
    exact ⟨plane, hp, row, hr, hv⟩

/-- A successful single-triple gather is exactly the success of its
three lookups. -/
theorem gatherTriple_eq_some_iff {α β : Type} (raw_boxes : List (List β))
    (raw_scores : List (List (List α))) (classes : List String)
    (t : ℤ × ℤ × ℤ) (b : β) (s : α) (l : String) :
    gatherTriple raw_boxes raw_scores classes t = some (b, s, l) ↔
      pyGet? classes t.2.1 = some l ∧
      pyGet3? raw_scores t.1 t.2.1 t.2.2 = some s ∧
      pyGet2? raw_boxes t.1 t.2.2 = some b := by
  simp only [gatherTriple, Option.bind_eq_bind', Option.bind_eq_some, Option.pure_def,
    Option.some.injEq, Prod.mk.injEq]
  constructor
  · rintro ⟨cls, hl, sc, hs, bx, hb, rfl, rfl, rfl⟩
    exact ⟨hl, hs, hb⟩
  · rintro ⟨hl, hs, hb⟩
    exact ⟨l, hl, s, hs, b, hb, rfl, rfl, rfl⟩

/-- Specification of the decoder loop on success: one output per
triple, in order, each gathered from the corresponding lookups. -/
theorem postprocessGo_ok_spec {α β : Type} (raw_boxes : List (List β))
    (raw_scores : List (List (List α))) (classes : List String)
    (ts : List (ℤ × ℤ × ℤ)) :
    ∀ (bs : List β) (ss : List α) (ls : List String),
      postprocessGo raw_boxes raw_scores classes ts = .ok (bs, ss, ls) →
      bs.length = ts.length ∧ ss.length = ts.length ∧ ls.length = ts.length ∧
      ∀ (j : ℕ) (t : ℤ × ℤ × ℤ), ts.get? j = some t →
        ls.get? j = pyGet? classes t.2.1 ∧
        ss.get? j = pyGet3? raw_scores t.1 t.2.1 t.2.2 ∧
        bs.get? j = pyGet2? raw_boxes t.1 t.2.2 := by
  induction ts with
  | nil =>
    intro bs ss ls h
    simp only [postprocessGo, Except.ok.injEq, Prod.mk.injEq] at h
    obtain ⟨rfl, rfl, rfl⟩ := h
    exact ⟨rfl, rfl, rfl, fun j t ht => by simp at ht⟩
  | cons t ts ih =>
    intro bs ss ls h
    simp only [postprocessGo] at h
    cases hc : pyGet? classes t.2.1 with
    | none => rw [hc] at h; simp at h
    | some cls =>
      rw [hc] at h
      cases hs : pyGet3? raw_scores t.1 t.2.1 t.2.2 with
      | none => rw [hs] at h; simp at h
      | some sc =>
        rw [hs] at h
        cases hb : pyGet2? raw_boxes t.1 t.2.2 with
        | none => rw [hb] at h; simp at h
        | some bx =>
          rw [hb] at h
          cases hr : postprocessGo raw_boxes raw_scores classes ts with
          | error e => rw [hr] at h; simp at h
          | ok out =>
            obtain ⟨bs0, ss0, ls0⟩ := out
            rw [hr] at h
            simp only [Except.ok.injEq, Prod.mk.injEq] at h
            obtain ⟨rfl, rfl, rfl⟩ := h
            obtain ⟨hb1, hs1, hl1, helem⟩ := ih bs0 ss0 ls0 hr
            refine ⟨by simp [hb1], by simp [hs1], by simp [hl1], ?_⟩
            intro j t0 ht
            cases j with
            | zero =>
              simp only [List.get?_cons_zero, Option.some.injEq] at ht
              subst ht
              exact ⟨by simp [hc], by simp [hs], by simp [hb]⟩
            | succ j =>
              simp only [List.get?_cons_succ] at ht ⊢
              exact helem j t0 ht

/-- If the class index of some triple is rejected by the label-table lookup,
the decoder loop raises `IndexError`. -/
theorem postprocessGo_error_of_bad_class {α β : Type}
    (raw_boxes : List (List β)) (raw_scores : List (List (List α)))
    (classes : List String) :
    ∀ ts : List (ℤ × ℤ × ℤ), (∃ t ∈ ts, pyGet? classes t.2.1 = none) →
      postprocessGo raw_boxes raw_scores classes ts = .error .indexError := by
  intro ts
  induction ts with
  | nil => intro h; simp at h
  | cons t ts ih =>
    intro h
    simp only [postprocessGo]
    rcases h with ⟨t0, ht0, hnone⟩
    rcases List.mem_cons.mp ht0 with rfl | hmem
    · rw [hnone]
    · cases hc : pyGet? classes t.2.1 with
      | none => rfl
      | some cls =>
        cases hs : pyGet3? raw_scores t.1 t.2.1 t.2.2 with
        | none => rfl
        | some sc =>
          cases hb : pyGet2? raw_boxes t.1 t.2.2 with
          | none => rfl
          | some bx =>
            rw [ih ⟨t0, hmem, hnone⟩]

/-- If the three lookups of every triple succeed, the decoder loop succeeds. -/
theorem postprocessGo_ok_of_forall {α β : Type} (raw_boxes : List (List β))
    (raw_scores : List (List (List α))) (classes : List String) :
    ∀ ts : List (ℤ × ℤ × ℤ),
      (∀ t ∈ ts, (gatherTriple raw_boxes raw_scores classes t).isSome) →
      ∃ out, postprocessGo raw_boxes raw_scores classes ts = .ok out := by
  intro ts
  induction ts with
  | nil => intro _; exact ⟨([], [], []), rfl⟩
  | cons t ts ih =>
    intro h
    have ht := h t (List.mem_cons_self t ts)
    simp only [gatherTriple, Option.isSome_iff_exists] at ht
    obtain ⟨⟨bx, sc, cls⟩, hbind⟩ := ht
    cases hc : pyGet? classes t.2.1 with
    | none => rw [hc] at hbind; simp at hbind
    | some cls1 =>
      rw [hc] at hbind
      cases hs : pyGet3? raw_scores t.1 t.2.1 t.2.2 with
      | none => rw [hs] at hbind; simp at hbind
      | some sc1 =>
        rw [hs] at hbind
        cases hb : pyGet2? raw_boxes t.1 t.2.2 with
        | none => rw [hb] at hbind; simp at hbind
        | some bx1 =>
          obtain ⟨⟨bs, ss, ls⟩, hrec⟩ :=
            ih fun t1 hm => h t1 (List.mem_cons_of_mem t hm)
          refine ⟨(bx1 :: bs, sc1 :: ss, cls1 :: ls), ?_⟩
          simp only [postprocessGo, hc, hs, hb, hrec]

/-- Claim C1: decoder gather correctness.  Whenever `postprocess`
succeeds on a batch-1 `selectedIndices` tensor, the detection at
position `j` carries exactly `classLabels[classIdx]`,
`scores[batchIdx, classIdx, candidateIdx]` and
`boxes[batchIdx, candidateIdx]` for the `j`-th triple
`(batchIdx, classIdx, candidateIdx)`. -/
theorem postprocess_gather_correct {α β : Type} (raw_boxes : List (List β))
    (raw_scores : List (List (List α))) (classes : List String)
    (ts : List (ℤ × ℤ × ℤ)) (bs : List β) (ss : List α) (ls : List String)
    (h : postprocess raw_boxes raw_scores [ts] classes = .ok (bs, ss, ls))
    (j : ℕ) (t : ℤ × ℤ × ℤ) (ht : ts.get? j = some t) :
    ls.get? j = pyGet? classes t.2.1 ∧
    ss.get? j = pyGet3? raw_scores t.1 t.2.1 t.2.2 ∧
    bs.get? j = pyGet2? raw_boxes t.1 t.2.2 := by
  rw [postprocess_singleton] at h
  exact (postprocessGo_ok_spec raw_boxes raw_scores classes ts bs ss ls
    h).2.2.2 j t ht

/-- Witness for C1: the decoder correctness example of the spec.
Boxes hold `(10,20,110,120)` at `(0,5)`, scores hold `0.87` at
`(0,3,5)`, the label table holds `cat` at index `3`, and decoding the
single triple `(0,3,5)` yields exactly that detection. -/
theorem postprocess_gather_correct_witness :
    postprocess
        [[((0 : ℚ), (0 : ℚ), (0 : ℚ), (0 : ℚ)), (0, 0, 0, 0), (0, 0, 0, 0),
          (0, 0, 0, 0), (0, 0, 0, 0), (10, 20, 110, 120)]]
        [[[], [], [], [(0 : ℚ), 0, 0, 0, 0, 87 / 100]]]
        [[((0 : ℤ), (3 : ℤ), (5 : ℤ))]] ["c0", "c1", "c2", "cat"] =
      .ok ([((10 : ℚ), (20 : ℚ), (110 : ℚ), (120 : ℚ))], [(87 / 100 : ℚ)],
        ["cat"]) ∧
    [((0 : ℤ), (3 : ℤ), (5 : ℤ))].get? 0 = some ((0 : ℤ), (3 : ℤ), (5 : ℤ)) ∧
    (["cat"].get? 0 = pyGet? ["c0", "c1", "c2", "cat"] 3 ∧
      [(87 / 100 : ℚ)].get? 0 =
        pyGet3? [[[], [], [], [(0 : ℚ), 0, 0, 0, 0, 87 / 100]]] 0 3 5 ∧
      [((10 : ℚ), (20 : ℚ), (110 : ℚ), (120 : ℚ))].get? 0 =
        pyGet2?
          [[((0 : ℚ), (0 : ℚ), (0 : ℚ), (0 : ℚ)), (0, 0, 0, 0), (0, 0, 0, 0),
            (0, 0, 0, 0), (0, 0, 0, 0), (10, 20, 110, 120)]] 0 5) :=
  ⟨by rfl, by rfl,
    postprocess_gather_correct
      [[((0 : ℚ), (0 : ℚ), (0 : ℚ), (0 : ℚ)), (0, 0, 0, 0), (0, 0, 0, 0),
        (0, 0, 0, 0), (0, 0, 0, 0), (10, 20, 110, 120)]]
      [[[], [], [], [(0 : ℚ), 0, 0, 0, 0, 87 / 100]]]
      ["c0", "c1", "c2", "cat"] [((0 : ℤ), (3 : ℤ), (5 : ℤ))]
      [((10 : ℚ), (20 : ℚ), (110 : ℚ), (120 : ℚ))] [(87 / 100 : ℚ)] ["cat"]
      (by rfl) 0 ((0 : ℤ), (3 : ℤ), (5 : ℤ)) (by rfl)⟩

/-- Claim C2: decoder length and order preservation.  On success the
decoder emits exactly one detection per triple of the batch-1
`selectedIndices` slice, and the `j`-th output components are precisely
the gather of the `j`-th triple — nothing is re-sorted, dropped or
duplicated. -/
theorem postprocess_length_order {α β : Type} (raw_boxes : List (List β))
    (raw_scores : List (List (List α))) (classes : List String)
    (ts : List (ℤ × ℤ × ℤ)) (bs : List β) (ss : List α) (ls : List String)
    (h : postprocess raw_boxes raw_scores [ts] classes = .ok (bs, ss, ls)) :
    bs.length = ts.length ∧ ss.length = ts.length ∧ ls.length = ts.length ∧
    ∀ (j : ℕ) (t : ℤ × ℤ × ℤ), ts.get? j = some t →
      ∃ b s l, bs.get? j = some b ∧ ss.get? j = some s ∧ ls.get? j = some l ∧
        gatherTriple raw_boxes raw_scores classes t = some (b, s, l) := by
  rw [postprocess_singleton] at h
  obtain ⟨hb, hs, hl, helem⟩ :=
    postprocessGo_ok_spec raw_boxes raw_scores classes ts bs ss ls h
  refine ⟨hb, hs, hl, ?_⟩
  intro j t ht
  have hj : j < ts.length := by
    by_contra hc
    push_neg at hc
    rw [List.get?_eq_none.mpr hc] at ht
    cases ht
  obtain ⟨hl1, hs1, hb1⟩ := helem j t ht
  cases hcl : ls.get? j with
  | none => rw [List.get?_eq_none] at hcl; omega
  | some l =>
    cases hcs : ss.get? j with
    | none => rw [List.get?_eq_none] at hcs; omega
    | some s =>
      cases hcb : bs.get? j with
      | none => rw [List.get?_eq_none] at hcb; omega
      | some b =>
        refine ⟨b, s, l, rfl, rfl, rfl, ?_⟩
        rw [hcl] at hl1
        rw [hcs] at hs1
        rw [hcb] at hb1
        unfold gatherTriple
        rw [← hl1, ← hs1, ← hb1]
        rfl

/-- Witness for C2: decoding two triples yields lists of length two
whose entries are the corresponding gathers, in order. -/
theorem postprocess_length_order_witness :
    postprocess [[((1 : ℚ), 1, 1, 1), (2, 2, 2, 2)]]
        [[[(1 / 2 : ℚ), 1 / 4]]]
        [[((0 : ℤ), (0 : ℤ), (0 : ℤ)), ((0 : ℤ), (0 : ℤ), (1 : ℤ))]]
        ["dog"] =
      .ok ([((1 : ℚ), 1, 1, 1), (2, 2, 2, 2)], [(1 / 2 : ℚ), 1 / 4],
        ["dog", "dog"]) ∧
    ([((1 : ℚ), 1, 1, 1), (2, 2, 2, 2)].length =
        [((0 : ℤ), (0 : ℤ), (0 : ℤ)), ((0 : ℤ), (0 : ℤ), (1 : ℤ))].length ∧
      [(1 / 2 : ℚ), 1 / 4].length =
        [((0 : ℤ), (0 : ℤ), (0 : ℤ)), ((0 : ℤ), (0 : ℤ), (1 : ℤ))].length ∧
      ["dog", "dog"].length =
        [((0 : ℤ), (0 : ℤ), (0 : ℤ)), ((0 : ℤ), (0 : ℤ), (1 : ℤ))].length ∧
      ∀ (j : ℕ) (t : ℤ × ℤ × ℤ),
        [((0 : ℤ), (0 : ℤ), (0 : ℤ)), ((0 : ℤ), (0 : ℤ), (1 : ℤ))].get? j =
          some t →
        ∃ b s l, [((1 : ℚ), 1, 1, 1), (2, 2, 2, 2)].get? j = some b ∧
          [(1 / 2 : ℚ), 1 / 4].get? j = some s ∧
          ["dog", "dog"].get? j = some l ∧
          gatherTriple [[((1 : ℚ), 1, 1, 1), (2, 2, 2, 2)]]
            [[[(1 / 2 : ℚ), 1 / 4]]] ["dog"] t = some (b, s, l)) :=
  ⟨by rfl, postprocess_length_order _ _ _ _ _ _ _ (by rfl)⟩

/-- Counterexample to C3 as stated: the class index `-1` lies outside
`[0, len(classLabels))` for the two-entry label table, yet the decoder
does not fail — Python negative indexing wraps around and decoding
succeeds with the last label. -/
theorem postprocess_class_oob_counterexample :
    ¬((0 : ℤ) ≤ -1 ∧ (-1 : ℤ) < ([("a" : String), "b"].length : ℤ)) ∧
    postprocess [[((1 : ℚ), 2, 3, 4)]] [[[(1 / 2 : ℚ)], [(3 / 4 : ℚ)]]]
        [[((0 : ℤ), (-1 : ℤ), (0 : ℤ))]] ["a", "b"] =
      .ok ([((1 : ℚ), 2, 3, 4)], [(3 / 4 : ℚ)], ["b"]) :=
  ⟨by decide, by rfl⟩

/-- Claim C3 as amended: if the class index of some triple lies outside
`[-len(classLabels), len(classLabels))` — the range Python accepts —
the decoder fails with `IndexError` and returns no partial output. -/
theorem postprocess_class_out_of_range_error {α β : Type}
    (raw_boxes : List (List β)) (raw_scores : List (List (List α)))
    (classes : List String) (ts : List (ℤ × ℤ × ℤ))
    (h : ∃ t ∈ ts, t.2.1 + classes.length < 0 ∨
      (classes.length : ℤ) ≤ t.2.1) :
    postprocess raw_boxes raw_scores [ts] classes = .error .indexError := by
  rw [postprocess_singleton]
  refine postprocessGo_error_of_bad_class raw_boxes raw_scores classes ts ?_
  rcases h with ⟨t, hm, hcond⟩
  exact ⟨t, hm, (pyGet?_eq_none_iff classes t.2.1).mpr hcond⟩

/-- Witness for amended C3: class id `999` against an 80-entry label
table raises `IndexError` with no partial output. -/
theorem postprocess_class_out_of_range_error_witness :
    (∃ t ∈ [((0 : ℤ), (999 : ℤ), (0 : ℤ))],
      t.2.1 + (List.replicate 80 "label").length < 0 ∨
        ((List.replicate 80 "label").length : ℤ) ≤ t.2.1) ∧
    postprocess ([[]] : List (List ℚ)) ([[[]]] : List (List (List ℚ)))
        [[((0 : ℤ), (999 : ℤ), (0 : ℤ))]] (List.replicate 80 "label") =
      .error .indexError :=
  ⟨by decide,
    postprocess_class_out_of_range_error _ _ _ _ (by decide)⟩

/-- Claim C9: a negative class index in `[-len(classLabels), 0)` does
not fail; on an otherwise valid call the decoder succeeds and the
emitted label is `classLabels[classIdx + len(classLabels)]`, Python
wrap-around indexing.  The same wrap-around applies on every axis of
the scores and boxes lookups: the emitted score and box are read from
the tensors at the `pyWrap`-normalized positions, which for a negative
batch, class or candidate index is the index plus that axis length. -/
theorem postprocess_negative_class_wraps {α β : Type}
    (raw_boxes : List (List β)) (raw_scores : List (List (List α)))
    (classes : List String) (ts : List (ℤ × ℤ × ℤ))
    (hall : ∀ t ∈ ts, (gatherTriple raw_boxes raw_scores classes t).isSome)
    (j : ℕ) (t : ℤ × ℤ × ℤ) (ht : ts.get? j = some t) (hneg : t.2.1 < 0) :
    ∃ bs ss ls, postprocess raw_boxes raw_scores [ts] classes =
        .ok (bs, ss, ls) ∧
      ls.get? j = classes.get? (t.2.1 + (classes.length : ℤ)).toNat ∧
      (∃ plane row s,
        raw_scores.get? (pyWrap raw_scores.length t.1) = some plane ∧
        plane.get? (pyWrap plane.length t.2.1) = some row ∧
        row.get? (pyWrap row.length t.2.2) = some s ∧
        ss.get? j = some s) ∧
      ∃ brow b,
        raw_boxes.get? (pyWrap raw_boxes.length t.1) = some brow ∧
        brow.get? (pyWrap brow.length t.2.2) = some b ∧
        bs.get? j = some b := by
  obtain ⟨⟨bs, ss, ls⟩, hok⟩ :=
    postprocessGo_ok_of_forall raw_boxes raw_scores classes ts hall
  obtain ⟨-, -, -, helem⟩ :=
    postprocessGo_ok_spec raw_boxes raw_scores classes ts bs ss ls hok
  obtain ⟨hl1, hs1, hb1⟩ := helem j t ht
  have hsome := hall t (List.get?_mem ht)
  obtain ⟨⟨bx, sc, cls⟩, hg⟩ := Option.isSome_iff_exists.mp hsome
  obtain ⟨hgc, hgs, hgb⟩ :=
    (gatherTriple_eq_some_iff raw_boxes raw_scores classes t bx sc cls).mp hg
  obtain ⟨plane, row, hsp, hsr, hsv⟩ :=
    (pyGet3?_eq_some_iff raw_scores t.1 t.2.1 t.2.2 sc).mp hgs
  obtain ⟨brow, hbp, hbv⟩ :=
    (pyGet2?_eq_some_iff raw_boxes t.1 t.2.2 bx).mp hgb
  refine ⟨bs, ss, ls, by rw [postprocess_singleton]; exact hok, ?_, ?_, ?_⟩
  · have hcond : (0 : ℤ) ≤ t.2.1 + classes.length := by
      by_contra hc
      push_neg at hc
      rw [(pyGet?_eq_none_iff classes t.2.1).mpr (Or.inl hc)] at hgc
      cases hgc
    rw [hl1]
    simp only [pyGet?]
    rw [if_pos hneg, if_pos hcond]
  · exact ⟨plane, row, sc, pyGet?_eq_some_wrap _ _ _ hsp,
      pyGet?_eq_some_wrap _ _ _ hsr, pyGet?_eq_some_wrap _ _ _ hsv,
      hs1.trans hgs⟩
  · exact ⟨brow, bx, pyGet?_eq_some_wrap _ _ _ hbp,
      pyGet?_eq_some_wrap _ _ _ hbv, hb1.trans hgb⟩

/-- Witness for C9: the all-negative triple `(-1, -1, -1)` against a
two-entry label table and two-batch tensors decodes successfully; the
label wraps to the last table entry, and the score and box are read at
the wrapped positions of every tensor axis (batch `-1` is the second
batch, candidate `-1` the last candidate). -/
theorem postprocess_negative_class_wraps_witness :
    (∀ t ∈ [((-1 : ℤ), (-1 : ℤ), (-1 : ℤ))],
      (gatherTriple [[((9 : ℚ), 9, 9, 9)], [(1, 1, 1, 1), (2, 2, 2, 2)]]
        [[[(9 : ℚ)]], [[(1 : ℚ), 2], [3, 4]]] ["a", "b"] t).isSome) ∧
    [((-1 : ℤ), (-1 : ℤ), (-1 : ℤ))].get? 0 =
      some ((-1 : ℤ), (-1 : ℤ), (-1 : ℤ)) ∧
    ((-1 : ℤ), (-1 : ℤ), (-1 : ℤ)).2.1 < 0 ∧
    ∃ bs ss ls,
      postprocess [[((9 : ℚ), 9, 9, 9)], [(1, 1, 1, 1), (2, 2, 2, 2)]]
          [[[(9 : ℚ)]], [[(1 : ℚ), 2], [3, 4]]]
          [[((-1 : ℤ), (-1 : ℤ), (-1 : ℤ))]] ["a", "b"] = .ok (bs, ss, ls) ∧
      ls.get? 0 =
        ["a", "b"].get?
          (((-1 : ℤ), (-1 : ℤ), (-1 : ℤ)).2.1 +
            (["a", "b"].length : ℤ)).toNat ∧
      (∃ plane row s,
        [[[(9 : ℚ)]], [[(1 : ℚ), 2], [3, 4]]].get?
            (pyWrap [[[(9 : ℚ)]], [[(1 : ℚ), 2], [3, 4]]].length (-1)) =
          some plane ∧
        plane.get? (pyWrap plane.length (-1)) = some row ∧
        row.get? (pyWrap row.length (-1)) = some s ∧
        ss.get? 0 = some s) ∧
      ∃ brow b,
        [[((9 : ℚ), 9, 9, 9)], [(1, 1, 1, 1), (2, 2, 2, 2)]].get?
            (pyWrap [[((9 : ℚ), 9, 9, 9)],
              [(1, 1, 1, 1), (2, 2, 2, 2)]].length (-1)) = some brow ∧
        brow.get? (pyWrap brow.length (-1)) = some b ∧
        bs.get? 0 = some b :=
  ⟨by decide, by rfl, by decide,
    postprocess_negative_class_wraps _ _ _ _ (by decide) 0 _ (by rfl)
      (by decide)⟩

/-- Claim C10: only the first slice of `selectedIndices` is decoded —
the result of `postprocess` on a tensor whose leading axis holds extra
slices equals the result on the first slice alone; the extra slices
contribute nothing. -/
theorem postprocess_first_slice_only {α β : Type} (raw_boxes : List (List β))
    (raw_scores : List (List (List α))) (ts0 : List (ℤ × ℤ × ℤ))
    (rest : List (List (ℤ × ℤ × ℤ))) (classes : List String) :
    postprocess raw_boxes raw_scores (ts0 :: rest) classes =
      postprocess raw_boxes raw_scores [ts0] classes := rfl

/-- Channel values of a pixel satisfying `PixelLe255` are at most 255;
channels beyond index 2 read as zero. -/
theorem channel_le_255 {p : ℕ × ℕ × ℕ} (hp : PixelLe255 p) (c : ℕ) :
    channel p c ≤ 255 := by
  match c with
  | 0 => exact hp.1
  | 1 => exact hp.2.1
  | 2 => exact hp.2.2
  | c + 3 => exact Nat.zero_le 255

/-- Every pixel of the letterboxed canvas is a legal 8-bit pixel:
either the gray padding or a pixel of the resized image. -/
theorem letterboxCore_pixel_le255 (resize : Image → ℕ → ℕ → Image)
    (hres : ResizeSpec resize) (image : Image) (size : ℕ × ℕ) (x y : ℕ) :
    PixelLe255 ((letterboxCore resize image size).pixel x y) := by
  simp only [letterboxCore]
  split
  · exact (hres image _ _).2.2 _ _
  · exact ⟨by norm_num, by norm_num, by norm_num⟩

/-- Claim C4: letterbox output guarantee.  For a positive-size input
image and a well-behaved resize backend, `transform` succeeds with a
tensor of exact shape `(1, 3, 416, 416)` whose every entry lies in
`[0, 1]`; and for any target `(w, h)`, `letterbox_image` succeeds with
a `w × h` image built with `scale = min(w/iw, h/ih)`,
`nw = floor(iw*scale)`, `nh = floor(ih*scale)`, a `(128,128,128)`
canvas, and paste offset `((w-nw)//2, (h-nh)//2)`.  The embedding is a
pure function, so the transform is deterministic and leaves the input
image unchanged. -/
theorem transform_letterbox_spec (resize : Image → ℕ → ℕ → Image)
    (image : Image) (w h : ℕ) (hres : ResizeSpec resize)
    (hiw : 0 < image.width) (hih : 0 < image.height) :
    (∃ t, transform resize image = .ok t ∧ t.dims = (1, 3, 416, 416) ∧
      ∀ b c y x, 0 ≤ t.entry b c y x ∧ t.entry b c y x ≤ 1) ∧
    letterbox_image resize image (w, h) =
      .ok (letterboxCore resize image (w, h)) ∧
    (letterboxCore resize image (w, h)).width = w ∧
    (letterboxCore resize image (w, h)).height = h ∧
    ∀ x y, (letterboxCore resize image (w, h)).pixel x y =
      (let scale : ℚ := min ((w : ℚ) / (image.width : ℚ))
          ((h : ℚ) / (image.height : ℚ))
       let nw : ℕ := ((image.width : ℚ) * scale).floor.toNat
       let nh : ℕ := ((image.height : ℚ) * scale).floor.toNat
       let ox := (w - nw) / 2
       let oy := (h - nh) / 2
       if ox ≤ x ∧ x < ox + nw ∧ oy ≤ y ∧ y < oy + nh then
         (resize image nw nh).pixel (x - ox) (y - oy)
       else (128, 128, 128)) := by
  have hne : ¬(image.width = 0 ∨ image.height = 0) := by omega
  have hlb : ∀ sz, letterbox_image resize image sz =
      .ok (letterboxCore resize image sz) := by
    intro sz
    unfold letterbox_image
    rw [if_neg hne]
  refine ⟨?_, hlb (w, h), rfl, rfl, fun x y => rfl⟩
  refine ⟨expandDims0 (transpose201 (divScalar
    (imageToArray (letterboxCore resize image (416, 416))) 255)), ?_, rfl, ?_⟩
  · unfold transform
    rw [hlb (416, 416)]
  · intro b c y x
    constructor
    · show 0 ≤
        (channel ((letterboxCore resize image (416, 416)).pixel x y) c : ℚ) /
          255
      positivity
    · show
        (channel ((letterboxCore resize image (416, 416)).pixel x y) c : ℚ) /
          255 ≤ 1
      rw [div_le_one (by norm_num)]
      exact_mod_cast channel_le_255
        (letterboxCore_pixel_le255 resize hres image (416, 416) x y) c

/-- Witness for C4: the guarantee instantiated at a concrete 2×1 image,
target `(100, 50)`, and the toy resize backend. -/
theorem transform_letterbox_spec_witness :
    ResizeSpec constResize ∧ 0 < (⟨2, 1, fun _ _ => (10, 20, 30)⟩ : Image).width ∧
    0 < (⟨2, 1, fun _ _ => (10, 20, 30)⟩ : Image).height ∧
    ((∃ t, transform constResize ⟨2, 1, fun _ _ => (10, 20, 30)⟩ = .ok t ∧
        t.dims = (1, 3, 416, 416) ∧
        ∀ b c y x, 0 ≤ t.entry b c y x ∧ t.entry b c y x ≤ 1) ∧
      letterbox_image constResize ⟨2, 1, fun _ _ => (10, 20, 30)⟩ (100, 50) =
        .ok (letterboxCore constResize ⟨2, 1, fun _ _ => (10, 20, 30)⟩
          (100, 50)) ∧
      (letterboxCore constResize ⟨2, 1, fun _ _ => (10, 20, 30)⟩
        (100, 50)).width = 100 ∧
      (letterboxCore constResize ⟨2, 1, fun _ _ => (10, 20, 30)⟩
        (100, 50)).height = 50 ∧
      ∀ x y, (letterboxCore constResize ⟨2, 1, fun _ _ => (10, 20, 30)⟩
          (100, 50)).pixel x y =
        (let scale : ℚ := min ((100 : ℚ) / ((2 : ℕ) : ℚ))
            ((50 : ℚ) / ((1 : ℕ) : ℚ))
         let nw : ℕ := (((2 : ℕ) : ℚ) * scale).floor.toNat
         let nh : ℕ := (((1 : ℕ) : ℚ) * scale).floor.toNat
         let ox := (100 - nw) / 2
         let oy := (50 - nh) / 2
         if ox ≤ x ∧ x < ox + nw ∧ oy ≤ y ∧ y < oy + nh then
           (constResize ⟨2, 1, fun _ _ => (10, 20, 30)⟩ nw nh).pixel (x - ox)
             (y - oy)
         else (128, 128, 128))) :=
  have hres : ResizeSpec constResize := fun _ _ _ =>
    ⟨rfl, rfl, fun _ _ => ⟨Nat.zero_le 255, Nat.zero_le 255, Nat.zero_le 255⟩⟩
  ⟨hres, Nat.zero_lt_succ 1, Nat.zero_lt_succ 0,
    transform_letterbox_spec constResize ⟨2, 1, fun _ _ => (10, 20, 30)⟩
      100 50 hres (Nat.zero_lt_succ 1) (Nat.zero_lt_succ 0)⟩

/-- Counterexample to C5 as stated: a zero-width image makes
`letterbox_image` raise `ZeroDivisionError` — the division by zero the
claim says is avoided is exactly what happens; the code has no
InvalidImage validation. -/
theorem letterbox_zero_width_counterexample :
    letterbox_image constResize ⟨0, 5, fun _ _ => (0, 0, 0)⟩ (416, 416) =
      .error .zeroDivisionError := rfl

/-- Claim C5 as amended: for a zero-width or zero-height input image
the letterbox transform fails with `ZeroDivisionError`, raised by the
division `w/iw` or `h/ih`. -/
theorem letterbox_zero_size_error (resize : Image → ℕ → ℕ → Image)
    (image : Image) (size : ℕ × ℕ)
    (h : image.width = 0 ∨ image.height = 0) :
    letterbox_image resize image size = .error .zeroDivisionError := by
  unfold letterbox_image
  rw [if_pos h]

/-- Witness for amended C5 at a zero-height image. -/
theorem letterbox_zero_size_error_witness :
    ((⟨7, 0, fun _ _ => (0, 0, 0)⟩ : Image).width = 0 ∨
      (⟨7, 0, fun _ _ => (0, 0, 0)⟩ : Image).height = 0) ∧
    letterbox_image constResize ⟨7, 0, fun _ _ => (0, 0, 0)⟩ (416, 416) =
      .error .zeroDivisionError :=
  ⟨Or.inr rfl,
    letterbox_zero_size_error constResize ⟨7, 0, fun _ _ => (0, 0, 0)⟩
      (416, 416) (Or.inr rfl)⟩

/-- Claim C6: renderer box rescaling.  The box outline drawn by
`_draw_bounding_box_on_image` runs through
`(left,top)-(left,bottom)-(right,bottom)-(right,top)-(left,top)` with
`left = xmin*(W/416)`, `right = xmax*(W/416)`, `top = ymin*(H/416)`,
`bottom = ymax*(H/416)`; in particular on an 832×832 image the box
`(10,20,110,120)` draws at `left=40, top=20, right=240, bottom=220`. -/
theorem draw_box_rescaling :
    (∀ (image : Image) (ymin xmin ymax xmax : ℚ) (color : String)
        (font : Font) (thickness : ℕ) (strs : List String),
      ∃ rest,
        _draw_bounding_box_on_image image ymin xmin ymax xmax color font
            thickness strs =
          DrawOp.line
            [(xmin * ((image.width : ℚ) / 416),
              ymin * ((image.height : ℚ) / 416)),
             (xmin * ((image.width : ℚ) / 416),
              ymax * ((image.height : ℚ) / 416)),
             (xmax * ((image.width : ℚ) / 416),
              ymax * ((image.height : ℚ) / 416)),
             (xmax * ((image.width : ℚ) / 416),
              ymin * ((image.height : ℚ) / 416)),
             (xmin * ((image.width : ℚ) / 416),
              ymin * ((image.height : ℚ) / 416))] thickness color :: rest) ∧
    (_draw_bounding_box_on_image ⟨832, 832, fun _ _ => (0, 0, 0)⟩ 10 20 110
        120 "red" (fun _ => (0, 0, 0, 0)) 4 ["s"]).head? =
      some (DrawOp.line [(40, 20), (40, 220), (240, 220), (240, 20), (40, 20)]
        4 "red") := by
  constructor
  · intro image ymin xmin ymax xmax color font thickness strs
    exact ⟨_, rfl⟩
  · norm_num [_draw_bounding_box_on_image]

/-- Counterexample to C7 as stated: at score `0.876` the renderer
displays `87%` — `int()` truncates — while rounding `87.6` to the
nearest integer as the claim states would display `88%`. -/
theorem displayStr_round_counterexample :
    displayStr "cat" (219 / 250) = "cat: 87%" ∧
    displayStrSpec "cat" (219 / 250) = "cat: 88%" ∧
    displayStr "cat" (219 / 250) ≠ displayStrSpec "cat" (219 / 250) := by
  have h1 : pyInt (100 * (219 / 250 : ℚ)) = 87 := by
    unfold pyInt
    rw [if_neg (by norm_num)]
    norm_num
  have h2 : round ((219 / 250 : ℚ) * 100) = 88 := by
    rw [round_eq]
    norm_num
  refine ⟨?_, ?_, ?_⟩
  · unfold displayStr
    rw [h1]
    rfl
  · unfold displayStrSpec
    rw [h2]
    rfl
  · unfold displayStr displayStrSpec
    rw [h1, h2]
    decide

/-- Claim C7 as amended: the display string is
`label ++ ": " ++ percentage ++ "%"` where the percentage is
`int(100*score)` — truncation toward zero, which on the nonnegative
scores of this pipeline is the floor of `100*score`, not rounding to
the nearest integer. -/
theorem displayStr_truncates (class_ : String) (score : ℚ) (h : 0 ≤ score) :
    displayStr class_ score =
      class_ ++ ": " ++ toString ⌊(100 * score : ℚ)⌋ ++ "%" := by
  unfold displayStr pyInt
  rw [if_neg (not_lt.mpr (mul_nonneg (by norm_num) h))]

/-- Witness for amended C7 at score `0.876`. -/
theorem displayStr_truncates_witness :
    (0 : ℚ) ≤ 219 / 250 ∧
    displayStr "cat" (219 / 250) =
      "cat" ++ ": " ++ toString ⌊(100 * (219 / 250) : ℚ)⌋ ++ "%" :=
  ⟨by norm_num, displayStr_truncates "cat" (219 / 250) (by norm_num)⟩

/-- Claim C8: rendering an empty detections list issues no drawing
primitive, so the annotated surface has exactly the pixel content of
the source image; the source image itself is untouched — the embedding is pure
and the output is a fresh surface built from the source content. -/
theorem render_empty_detections (applyOp : Image → DrawOp → Image)
    (hashF : String → ℤ) (colors : List String) (font : Font)
    (image : Image) (boxes : List (ℚ × ℚ × ℚ × ℚ)) (scores : List ℚ) :
    draw_boxes hashF colors font image boxes scores [] = .ok [] ∧
    renderBoxes applyOp hashF colors font image boxes scores [] = .ok image :=
  ⟨rfl, rfl⟩

end ObjDet

